import Mathlib

set_option autoImplicit false

/- Shallow embedding of the smart-home backend (`backend.py`): a device store
with shallow key-wise merge updates, a sensor store with trigger toggling, an
append-only event log, and a websocket connection manager with best-effort
broadcast.  Python dicts are modelled as association lists with unique keys,
UUIDs as a natural-number counter, and `datetime.utcnow()` as a strictly
monotone natural-number clock. -/

/-- JSON-like scalar values stored in device state and event payloads.  The
merge and payload logic treats values opaquely, so a flat value universe
suffices. -/
inductive Val where
  | null : Val
  | bool : Bool → Val
  | num : Int → Val
  | str : String → Val
deriving Repr, DecidableEq

/-- A Python dict with string keys, as an association list (reachable states
only hold unique keys). -/
abbrev Obj := List (String × Val)

/-- Python truthiness of a scalar value, `bool(x)`. -/
def pyTruthy : Val → Bool
  | .null => false
  | .bool b => b
  | .num n => n != 0
  | .str s => !s.isEmpty

/-- Write one key into a dict, Python style: an existing key keeps its
position and receives the new value, a fresh key is appended at the end. -/
def dictInsert : Obj → String → Val → Obj
  | [], k, v => [(k, v)]
  | (k', v') :: rest, k, v =>
    if k' == k then (k', v) :: rest else (k', v') :: dictInsert rest k v

/-- `current_state.update(payload)`: shallow key-wise merge, keys of the patch
overwrite, all other keys are preserved. -/
def dictUpdate (m p : Obj) : Obj :=
  p.foldl (fun acc kv => dictInsert acc kv.1 kv.2) m

/-- Dict lookup, first matching key. -/
def objGet (m : Obj) (k : String) : Option Val :=
  (m.find? (fun kv => kv.1 == k)).map (fun kv => kv.2)

/-- A row of the `devices` table (`created_at` is never read by the behaviour
under study and is omitted). -/
structure Device where
  did : Nat
  name : String
  dtype : String
  state : Obj
deriving Repr, DecidableEq

/-- A row of the `sensors` table.  `sensitivity` is an opaque numeric field,
never computed with. -/
structure Sensor where
  sid : Nat
  name : String
  stype : String
  is_triggered : Bool
  sensitivity : Int
deriving Repr, DecidableEq

/-- A stored event row.  The payload field holds the parsed value of the
stored JSON string `json.dumps(payload) if payload else None`: an absent or
empty payload dict is stored as `none`. -/
structure Event where
  eid : Nat
  timestamp : Nat
  level : String
  source : String
  payload : Option Obj
deriving Repr, DecidableEq

/-- The frame pushed to observers, `{type: "event", event: {...}}`, with the
payload exactly as the `evt` dict carries it (not the stored form). -/
structure Frame where
  ftype : String
  eid : Nat
  timestamp : Nat
  level : String
  source : String
  payload : Option Obj
deriving Repr, DecidableEq

/-- A websocket connection object: `failing` says whether `send_text` raises,
`inbox` records the frames actually delivered to this observer. -/
structure Conn where
  cid : Nat
  failing : Bool
  inbox : List Frame
deriving Repr, DecidableEq

/-- Whole backend state: the three tables, the connection manager registry
(`active`) over the world of connection objects (`conns`), the UUID counter
and the strictly monotone clock standing in for `datetime.utcnow()`. -/
structure Sys where
  devices : List Device
  sensors : List Sensor
  eventLog : List Event
  conns : List Conn
  active : List Nat
  nextUuid : Nat
  clock : Nat
deriving Repr, DecidableEq

/-- `ConnectionManager.disconnect`: `if websocket in self.active:
self.active.remove(websocket)` — remove the first occurrence if present. -/
def disconnectList (l : List Nat) (c : Nat) : List Nat :=
  if l.contains c then l.erase c else l

/-- Whether sending to connection `c` raises. -/
def connFailing (conns : List Conn) (c : Nat) : Bool :=
  ((conns.find? (fun x => x.cid == c)).map (fun x => x.failing)).getD false

/-- A successful `send_text` to connection `c`. -/
def deliver (conns : List Conn) (c : Nat) (f : Frame) : List Conn :=
  conns.map (fun x => if x.cid == c then { x with inbox := x.inbox ++ [f] } else x)

/-- The frames delivered so far to connection `c`. -/
def inboxOf (conns : List Conn) (c : Nat) : List Frame :=
  ((conns.find? (fun x => x.cid == c)).map (fun x => x.inbox)).getD []

/-- One iteration of `ConnectionManager.broadcast`: try to send to `c`; on
failure, `self.disconnect(c)` and carry on. -/
def broadcastStep (f : Frame) (st : Sys) (c : Nat) : Sys :=
  if connFailing st.conns c then { st with active := disconnectList st.active c }
  else { st with conns := deliver st.conns c f }

/-- `ConnectionManager.broadcast`: iterate over a snapshot of the registry
(`list(self.active)`) taken before the loop. -/
def broadcastSys (s : Sys) (f : Frame) : Sys :=
  s.active.foldl (broadcastStep f) s

/-- `manager.disconnect` lifted to the system state. -/
def disconnectSys (s : Sys) (c : Nat) : Sys :=
  { s with active := disconnectList s.active c }

/-- Python truthiness of the optional payload dict. -/
def payloadTruthy : Option Obj → Bool
  | none => false
  | some o => !o.isEmpty

/-- What the `events` row stores: `json.dumps(payload) if payload else None`,
composed with the `json.loads` done when the row is read back. -/
def storedPayload (p : Option Obj) : Option Obj :=
  if payloadTruthy p then p else none

/-- `log_event`: insert the event row, then broadcast the frame to every
active observer; returns the `evt` dict as the frame. -/
def log_event (s : Sys) (level source : String) (p : Option Obj) : Sys × Frame :=
  let evId := s.nextUuid
  let now := s.clock
  let record : Event := ⟨evId, now, level, source, storedPayload p⟩
  let s1 : Sys := { s with eventLog := s.eventLog ++ [record],
                           nextUuid := s.nextUuid + 1, clock := s.clock + 1 }
  let fr : Frame := ⟨"event", evId, now, level, source, p⟩
  (broadcastSys s1 fr, fr)

/-- The success response `{"ok": True}` shared by the mutating endpoints. -/
def okResp : Obj := [("ok", Val.bool true)]

/-- The only caller-visible error of the behaviour under study. -/
inductive ApiError where
  | notFound : String → ApiError
deriving Repr, DecidableEq

/-- `create_device` (POST /devices): fresh id, state stored verbatim. -/
def create_device (s : Sys) (name dtype : String) (st : Obj) : Sys × Nat :=
  let devId := s.nextUuid
  ({ s with devices := s.devices ++ [⟨devId, name, dtype, st⟩],
            nextUuid := s.nextUuid + 1 }, devId)

/-- `update_device` (PATCH /devices/...).  The 404 is raised before any
write, so on the error path the state component is returned unchanged. -/
def update_device (s : Sys) (i : Nat) (p : Obj) : Sys × Except ApiError Obj :=
  match s.devices.find? (fun d => d.did == i) with
  | none => (s, .error (.notFound "Device not found"))
  | some row =>
    let current_state := dictUpdate row.state p
    let s1 : Sys := { s with
      devices := s.devices.map
        (fun d => if d.did == i then { d with state := current_state } else d) }
    let s2 := (log_event s1 "info" ("Device Update: " ++ row.name) (some current_state)).1
    (s2, .ok okResp)

/-- The `val` computed by `trigger_sensor`: `bool(body.get("value", True))`,
`none` standing for a body without a "value" key. -/
def triggerVal (bv : Option Val) : Bool :=
  (bv.map pyTruthy).getD true

/-- `trigger_sensor` (POST /sensors/.../trigger).  The SQL UPDATE matches zero
rows for an unknown id and succeeds anyway; an event is always logged. -/
def trigger_sensor (s : Sys) (i : Nat) (bv : Option Val) : Sys × Obj :=
  let val := triggerVal bv
  let s1 : Sys := { s with
    sensors := s.sensors.map
      (fun sn => if sn.sid == i then { sn with is_triggered := val } else sn) }
  let payload : Obj := [("sensor_id", Val.num (Int.ofNat i)), ("triggered", Val.bool val)]
  let s2 := (log_event s1 (if val then "warn" else "info") "Sensor Update" (some payload)).1
  (s2, okResp)

/-- Insertion step of the ORDER BY timestamp DESC sort. -/
def insertTsDesc (e : Event) : List Event → List Event
  | [] => [e]
  | x :: xs => if e.timestamp ≤ x.timestamp then x :: insertTsDesc e xs else e :: x :: xs

/-- ORDER BY timestamp DESC over the stored rows. -/
def sortTsDesc (l : List Event) : List Event :=
  l.foldr insertTsDesc []

/-- `get_events` (GET /events): ORDER BY timestamp DESC LIMIT `limit`. -/
def get_events (s : Sys) (limit : Nat) : List Event :=
  (sortTsDesc s.eventLog).take limit

/-- `create_manual_log` (POST /logs): `body.get` with defaults, routed through
the same `log_event` path as internally generated events. -/
def create_manual_log (s : Sys) (level source : Option String) (p : Option Obj) : Sys × Obj :=
  ((log_event s (level.getD "info") (source.getD "Manual") p).1, okResp)

/-- Fold a list of partial updates through `update_device`, keeping the state
stored after each call. -/
def applyUpdates (s : Sys) (i : Nat) : List Obj → Sys
  | [] => s
  | p :: ps => applyUpdates (update_device s i p).1 i ps

/-- The stored state of device `i`. -/
def deviceState (s : Sys) (i : Nat) : Option Obj :=
  (s.devices.find? (fun d => d.did == i)).map (fun d => d.state)

/-- Timestamps strictly increase along the log and stay below the clock; this
holds in every reachable state because `log_event` stamps with the clock and
then advances it. -/
def LogChrono (s : Sys) : Prop :=
  List.Pairwise (fun a b => a.timestamp < b.timestamp) s.eventLog ∧
  ∀ e ∈ s.eventLog, e.timestamp < s.clock

/- ### Preservation of table fields by the broadcast loop -/

theorem broadcastStep_eventLog (f : Frame) (st : Sys) (c : Nat) :
    (broadcastStep f st c).eventLog = st.eventLog := by
  unfold broadcastStep; split <;> rfl

theorem broadcastStep_devices (f : Frame) (st : Sys) (c : Nat) :
    (broadcastStep f st c).devices = st.devices := by
  unfold broadcastStep; split <;> rfl

theorem broadcastStep_sensors (f : Frame) (st : Sys) (c : Nat) :
    (broadcastStep f st c).sensors = st.sensors := by
  unfold broadcastStep; split <;> rfl

theorem broadcastStep_clock (f : Frame) (st : Sys) (c : Nat) :
    (broadcastStep f st c).clock = st.clock := by
  unfold broadcastStep; split <;> rfl

theorem broadcastStep_nextUuid (f : Frame) (st : Sys) (c : Nat) :
    (broadcastStep f st c).nextUuid = st.nextUuid := by
  unfold broadcastStep; split <;> rfl

theorem foldl_broadcastStep_eventLog (f : Frame) (l : List Nat) (st : Sys) :
    (l.foldl (broadcastStep f) st).eventLog = st.eventLog := by
  induction l generalizing st with
  | nil => rfl
  | cons c rest ih => rw [List.foldl_cons, ih, broadcastStep_eventLog]

theorem foldl_broadcastStep_devices (f : Frame) (l : List Nat) (st : Sys) :
    (l.foldl (broadcastStep f) st).devices = st.devices := by
  induction l generalizing st with
  | nil => rfl
  | cons c rest ih => rw [List.foldl_cons, ih, broadcastStep_devices]

theorem foldl_broadcastStep_sensors (f : Frame) (l : List Nat) (st : Sys) :
    (l.foldl (broadcastStep f) st).sensors = st.sensors := by
  induction l generalizing st with
  | nil => rfl
  | cons c rest ih => rw [List.foldl_cons, ih, broadcastStep_sensors]

theorem foldl_broadcastStep_clock (f : Frame) (l : List Nat) (st : Sys) :
    (l.foldl (broadcastStep f) st).clock = st.clock := by
  induction l generalizing st with
  | nil => rfl
  | cons c rest ih => rw [List.foldl_cons, ih, broadcastStep_clock]

theorem foldl_broadcastStep_nextUuid (f : Frame) (l : List Nat) (st : Sys) :
    (l.foldl (broadcastStep f) st).nextUuid = st.nextUuid := by
  induction l generalizing st with
  | nil => rfl
  | cons c rest ih => rw [List.foldl_cons, ih, broadcastStep_nextUuid]

theorem broadcastSys_eventLog (s : Sys) (f : Frame) :
    (broadcastSys s f).eventLog = s.eventLog :=
  foldl_broadcastStep_eventLog f s.active s

theorem broadcastSys_devices (s : Sys) (f : Frame) :
    (broadcastSys s f).devices = s.devices :=
  foldl_broadcastStep_devices f s.active s

theorem broadcastSys_sensors (s : Sys) (f : Frame) :
    (broadcastSys s f).sensors = s.sensors :=
  foldl_broadcastStep_sensors f s.active s

/- ### Components of `log_event` -/

theorem log_event_eventLog (s : Sys) (lvl src : String) (p : Option Obj) :
    (log_event s lvl src p).1.eventLog =
      s.eventLog ++ [⟨s.nextUuid, s.clock, lvl, src, storedPayload p⟩] := by
  unfold log_event
  exact broadcastSys_eventLog _ _

theorem log_event_devices (s : Sys) (lvl src : String) (p : Option Obj) :
    (log_event s lvl src p).1.devices = s.devices := by
  unfold log_event
  exact broadcastSys_devices _ _

theorem log_event_sensors (s : Sys) (lvl src : String) (p : Option Obj) :
    (log_event s lvl src p).1.sensors = s.sensors := by
  unfold log_event
  exact broadcastSys_sensors _ _

theorem log_event_clock (s : Sys) (lvl src : String) (p : Option Obj) :
    (log_event s lvl src p).1.clock = s.clock + 1 := by
  unfold log_event
  exact foldl_broadcastStep_clock _ _ _

theorem log_event_frame (s : Sys) (lvl src : String) (p : Option Obj) :
    (log_event s lvl src p).2 = ⟨"event", s.nextUuid, s.clock, lvl, src, p⟩ := rfl

theorem map_id_of_mem {α : Type} (l : List α) (f : α → α) (h : ∀ x ∈ l, f x = x) :
    l.map f = l := by
  induction l with
  | nil => rfl
  | cons a t ih =>
    rw [List.map_cons, h a (by simp), ih (fun x hx => h x (by simp [hx]))]

/- ### Witness fixture -/

/-- A small concrete backend state used by the witnesses: one device, one
sensor, one healthy observer. -/
def sysA : Sys :=
  { devices := [⟨0, "Lamp", "light", [("on", Val.bool false)]⟩]
    sensors := [⟨1, "Front Door", "door", false, 1⟩]
    eventLog := []
    conns := [⟨7, false, []⟩]
    active := [7]
    nextUuid := 2
    clock := 0 }

/-- C2: `update_device` called with an id not present in the device store
fails with NotFound, appends no Event, broadcasts to no observer, and leaves
the whole state — in particular every device's stored state — unchanged. -/
theorem update_device_unknown_notFound (s : Sys) (i : Nat) (p : Obj)
    (h : ∀ d ∈ s.devices, d.did ≠ i) :
    (update_device s i p).1 = s ∧
    (update_device s i p).2 = Except.error (ApiError.notFound "Device not found") := by
  have hf : s.devices.find? (fun d => d.did == i) = none :=
    List.find?_eq_none.mpr (fun d hd => by simpa using h d hd)
  simp [update_device, hf]

theorem update_device_unknown_notFound_witness :
    (∀ d ∈ sysA.devices, d.did ≠ 9) ∧
    (update_device sysA 9 [("on", Val.bool true)]).1 = sysA ∧
    (update_device sysA 9 [("on", Val.bool true)]).2 =
      Except.error (ApiError.notFound "Device not found") :=
  ⟨by decide, (update_device_unknown_notFound sysA 9 [("on", Val.bool true)] (by decide)).1,
    (update_device_unknown_notFound sysA 9 [("on", Val.bool true)] (by decide)).2⟩

/-- C6: `trigger_sensor` on an id absent from the sensor store does not fail:
it returns the ok response and changes no sensor row. -/
theorem trigger_sensor_unknown_noop (s : Sys) (i : Nat) (bv : Option Val)
    (h : ∀ sn ∈ s.sensors, sn.sid ≠ i) :
    (trigger_sensor s i bv).1.sensors = s.sensors ∧
    (trigger_sensor s i bv).2 = okResp := by
  constructor
  · have h1 : (trigger_sensor s i bv).1.sensors =
        s.sensors.map
          (fun sn => if sn.sid == i then { sn with is_triggered := triggerVal bv } else sn) := by
      simp only [trigger_sensor]
      rw [log_event_sensors]
    rw [h1]
    refine map_id_of_mem _ _ (fun sn hsn => ?_)
    have hb : (sn.sid == i) = false := beq_eq_false_iff_ne.mpr (h sn hsn)
    simp [hb]
  · rfl

theorem trigger_sensor_unknown_noop_witness :
    (∀ sn ∈ sysA.sensors, sn.sid ≠ 3) ∧
    (trigger_sensor sysA 3 none).1.sensors = sysA.sensors ∧
    (trigger_sensor sysA 3 none).2 = okResp :=
  ⟨by decide, (trigger_sensor_unknown_noop sysA 3 none (by decide)).1,
    (trigger_sensor_unknown_noop sysA 3 none (by decide)).2⟩

/- ### Locating a device row after the UPDATE statement -/

theorem find?_map_update (l : List Device) (i : Nat) (row : Device) (st' : Obj)
    (h : l.find? (fun d => d.did == i) = some row) :
    (l.map (fun d => if d.did == i then { d with state := st' } else d)).find?
      (fun d => d.did == i) = some { row with state := st' } := by
  induction l with
  | nil => simp at h
  | cons a t ih =>
    simp only [List.find?_cons] at h
    rw [List.map_cons]
    simp only [List.find?_cons]
    by_cases ha : (a.did == i) = true
    · rw [ha] at h
      have h2 : some a = some row := h
      have hrow : a = row := by injection h2
      subst hrow
      rw [if_pos ha]
      simp [ha]
    · rw [Bool.not_eq_true] at ha
      rw [ha] at h
      rw [if_neg (by simp [ha])]
      rw [ha]
      exact ih h

/-- C8 (amended): for every known device id, `update_device` computes and
stores the full merged state (and logs it), but its response is the success
indicator `{"ok": true}` — the merged state is not the return value. -/
theorem update_device_known_response (s : Sys) (i : Nat) (p : Obj) (row : Device)
    (h : s.devices.find? (fun d => d.did == i) = some row) :
    (update_device s i p).2 = Except.ok okResp ∧
    deviceState (update_device s i p).1 i = some (dictUpdate row.state p) := by
  constructor
  · simp [update_device, h]
  · have hdev : (update_device s i p).1.devices =
        s.devices.map
          (fun d => if d.did == i then { d with state := dictUpdate row.state p } else d) := by
      simp only [update_device, h]
      rw [log_event_devices]
    unfold deviceState
    rw [hdev, find?_map_update s.devices i row _ h]
    rfl

theorem update_device_known_response_witness :
    sysA.devices.find? (fun d => d.did == 0) =
      some ⟨0, "Lamp", "light", [("on", Val.bool false)]⟩ ∧
    (update_device sysA 0 [("hue", Val.num 3)]).2 = Except.ok okResp ∧
    deviceState (update_device sysA 0 [("hue", Val.num 3)]).1 0 =
      some [("on", Val.bool false), ("hue", Val.num 3)] :=
  ⟨by decide,
    (update_device_known_response sysA 0 [("hue", Val.num 3)]
      ⟨0, "Lamp", "light", [("on", Val.bool false)]⟩ (by decide)).1,
    (update_device_known_response sysA 0 [("hue", Val.num 3)]
      ⟨0, "Lamp", "light", [("on", Val.bool false)]⟩ (by decide)).2⟩

/-- C8 counterexample: on a known device the call returns the success
indicator, which is not the merged state (the merged state is stored, and
differs from the response). -/
theorem update_device_response_not_state :
    (update_device sysA 0 [("on", Val.bool true)]).2 = Except.ok okResp ∧
    deviceState (update_device sysA 0 [("on", Val.bool true)]).1 0 =
      some [("on", Val.bool true)] ∧
    okResp ≠ [("on", Val.bool true)] :=
  ⟨rfl, rfl, by decide⟩

/-- C9: a trigger request whose body omits the "value" key defaults to true:
the call is identical to an explicit value=true call, every sensor row with
the requested id has its flag set to true, and the logged event carries
level warn, exactly as for an explicit true. -/
theorem trigger_sensor_default_true (s : Sys) (i : Nat) :
    trigger_sensor s i none = trigger_sensor s i (some (Val.bool true)) ∧
    (∀ sn ∈ (trigger_sensor s i none).1.sensors, sn.sid = i → sn.is_triggered = true) ∧
    (trigger_sensor s i none).1.eventLog =
      s.eventLog ++ [⟨s.nextUuid, s.clock, "warn", "Sensor Update",
        some [("sensor_id", Val.num (Int.ofNat i)), ("triggered", Val.bool true)]⟩] := by
  have h1 : (trigger_sensor s i none).1.sensors =
      s.sensors.map (fun x => if x.sid == i then { x with is_triggered := true } else x) := by
    simp only [trigger_sensor]
    rw [log_event_sensors]
    rfl
  refine ⟨rfl, ?_, ?_⟩
  · intro sn hsn hsid
    rw [h1] at hsn
    obtain ⟨x, hx, hmap⟩ := List.mem_map.mp hsn
    by_cases hxi : (x.sid == i) = true
    · rw [if_pos hxi] at hmap
      rw [← hmap]
    · rw [if_neg hxi] at hmap
      subst hmap
      exact absurd (by simpa using hsid) hxi
  · simp only [trigger_sensor]
    rw [log_event_eventLog]
    rfl

theorem trigger_sensor_default_true_witness :
    trigger_sensor sysA 1 none = trigger_sensor sysA 1 (some (Val.bool true)) ∧
    (trigger_sensor sysA 1 none).1.eventLog =
      [⟨2, 0, "warn", "Sensor Update",
        some [("sensor_id", Val.num 1), ("triggered", Val.bool true)]⟩] :=
  ⟨(trigger_sensor_default_true sysA 1).1, (trigger_sensor_default_true sysA 1).2.2⟩

/-- C10 (amended): along every append-and-publish path an empty or absent
payload dict is stored as `none` in the event row, while the frame pushed to
observers carries the payload exactly as given — an empty mapping stays an
empty mapping in the frame; non-empty mappings are preserved in both. -/
theorem log_event_payload_handling (s : Sys) (lvl src : String) (p : Option Obj) :
    (log_event s lvl src p).1.eventLog =
      s.eventLog ++ [⟨s.nextUuid, s.clock, lvl, src, storedPayload p⟩] ∧
    storedPayload (some ([] : Obj)) = none ∧
    storedPayload none = none ∧
    (payloadTruthy p = true → storedPayload p = p) ∧
    (log_event s lvl src p).2.payload = p ∧
    (create_manual_log s (some lvl) (some src) p).1.eventLog =
      s.eventLog ++ [⟨s.nextUuid, s.clock, lvl, src, storedPayload p⟩] := by
  refine ⟨log_event_eventLog s lvl src p, rfl, rfl, ?_, rfl,
    log_event_eventLog s lvl src p⟩
  intro hp
  simp [storedPayload, hp]

theorem log_event_payload_handling_witness :
    payloadTruthy (some [("k", Val.num 1)]) = true ∧
    (log_event sysA "info" "Manual" (some [("k", Val.num 1)])).1.eventLog =
      [⟨2, 0, "info", "Manual", storedPayload (some [("k", Val.num 1)])⟩] ∧
    storedPayload (some ([("k", Val.num 1)] : Obj)) = some [("k", Val.num 1)] :=
  ⟨by decide,
    (log_event_payload_handling sysA "info" "Manual" (some [("k", Val.num 1)])).1,
    (log_event_payload_handling sysA "info" "Manual" (some [("k", Val.num 1)])).2.2.2.1
      (by decide)⟩

/-- C10 counterexample: a manual log with the empty mapping as payload is
stored with payload `none`, but the frame actually pushed to the connected
observer carries the empty mapping — not null as the claim states. -/
theorem manual_log_empty_payload_frame :
    ((create_manual_log sysA none none (some [])).1.eventLog.map (fun e => e.payload))
      = [none] ∧
    inboxOf (create_manual_log sysA none none (some [])).1.conns 7 =
      [⟨"event", 2, 0, "info", "Manual", some []⟩] ∧
    (⟨"event", 2, 0, "info", "Manual", some []⟩ : Frame).payload ≠ none :=
  ⟨rfl, rfl, by decide⟩

/- ### Key-wise behaviour of the shallow merge -/

theorem objGet_cons (k' : String) (v : Val) (t : Obj) (k : String) :
    objGet ((k', v) :: t) k = if (k' == k) = true then some v else objGet t k := by
  by_cases h : (k' == k) = true
  · simp [objGet, List.find?_cons, h]
  · simp [objGet, List.find?_cons, h]

theorem objGet_dictInsert_self (m : Obj) (k : String) (v : Val) :
    objGet (dictInsert m k v) k = some v := by
  induction m with
  | nil => simp [dictInsert, objGet]
  | cons a t ih =>
    obtain ⟨k', v'⟩ := a
    simp only [dictInsert]
    by_cases h : (k' == k) = true
    · rw [if_pos h, objGet_cons, if_pos h]
    · rw [if_neg h, objGet_cons, if_neg h]
      exact ih

theorem objGet_dictInsert_ne (m : Obj) (k k0 : String) (v : Val)
    (hne : (k == k0) = false) :
    objGet (dictInsert m k v) k0 = objGet m k0 := by
  induction m with
  | nil => simp [dictInsert, objGet, hne]
  | cons a t ih =>
    obtain ⟨k', v'⟩ := a
    simp only [dictInsert]
    by_cases h : (k' == k) = true
    · rw [if_pos h]
      have hkeq : k' = k := by simpa using h
      subst hkeq
      rw [objGet_cons, objGet_cons, if_neg (by simp [hne]), if_neg (by simp [hne])]
    · rw [if_neg h, objGet_cons, objGet_cons]
      by_cases h0 : (k' == k0) = true
      · rw [if_pos h0, if_pos h0]
      · rw [if_neg h0, if_neg h0]
        exact ih

theorem objGet_eq_none_of_not_mem (m : Obj) (k : String)
    (h : ∀ kv ∈ m, (kv.1 == k) = false) :
    objGet m k = none := by
  induction m with
  | nil => rfl
  | cons a t ih =>
    obtain ⟨k', v'⟩ := a
    rw [objGet_cons, if_neg (by simp [h (k', v') (by simp)])]
    exact ih (fun kv hkv => h kv (by simp [hkv]))

/-- Key-wise law of one shallow merge: a key of the patch wins, any other key
keeps its stored value.  The patch has unique keys, as every Python dict
does. -/
theorem objGet_dictUpdate (m p : Obj) (k : String) (hp : (p.map Prod.fst).Nodup) :
    objGet (dictUpdate m p) k = (objGet p k).or (objGet m k) := by
  induction p generalizing m with
  | nil => simp [dictUpdate, objGet]
  | cons a rest ih =>
    obtain ⟨k', v⟩ := a
    rw [List.map_cons] at hp
    have hk' : k' ∉ rest.map Prod.fst := (List.nodup_cons.mp hp).1
    have hnd : (rest.map Prod.fst).Nodup := (List.nodup_cons.mp hp).2
    have hstep : dictUpdate m ((k', v) :: rest) = dictUpdate (dictInsert m k' v) rest := rfl
    rw [hstep, ih (dictInsert m k' v) hnd, objGet_cons]
    by_cases hk : (k' == k) = true
    · rw [if_pos hk]
      have hkeq : k' = k := by simpa using hk
      subst hkeq
      have h1 : objGet rest k' = none := by
        apply objGet_eq_none_of_not_mem
        intro kv hkv
        rw [beq_eq_false_iff_ne]
        intro heq
        apply hk'
        rw [← heq]
        exact List.mem_map_of_mem Prod.fst hkv
      rw [h1, objGet_dictInsert_self]
      simp
    · rw [if_neg hk, objGet_dictInsert_ne m k' k v (by rwa [Bool.not_eq_true] at hk)]

/- ### The stored device row along a sequence of updates -/

theorem applyUpdates_find? (i : Nat) (ps : List Obj) (s : Sys) (row : Device)
    (h : s.devices.find? (fun d => d.did == i) = some row) :
    (applyUpdates s i ps).devices.find? (fun d => d.did == i) =
      some { row with state := ps.foldl dictUpdate row.state } := by
  induction ps generalizing s row with
  | nil => exact h
  | cons p rest ih =>
    have hdev : (update_device s i p).1.devices =
        s.devices.map
          (fun d => if d.did == i then { d with state := dictUpdate row.state p } else d) := by
      simp only [update_device, h]
      rw [log_event_devices]
    have hfind : (update_device s i p).1.devices.find? (fun d => d.did == i) =
        some { row with state := dictUpdate row.state p } := by
      rw [hdev]
      exact find?_map_update s.devices i row _ h
    have hrec := ih (update_device s i p).1 { row with state := dictUpdate row.state p } hfind
    simp only [applyUpdates]
    rw [hrec]
    rfl

/-- C1: for every device and every sequence of partial updates applied via
`update_device`, the stored state is the left-fold of shallow key-wise merges
over the initial state, and one merge is key-wise: a key of the patch
overwrites, a key absent from the patch is preserved. -/
theorem merge_law (s : Sys) (i : Nat) (row : Device) (ps : List Obj)
    (h : s.devices.find? (fun d => d.did == i) = some row) :
    deviceState (applyUpdates s i ps) i = some (ps.foldl dictUpdate row.state) ∧
    ∀ (m p0 : Obj) (k : String), (p0.map Prod.fst).Nodup →
      objGet (dictUpdate m p0) k = (objGet p0 k).or (objGet m k) := by
  constructor
  · unfold deviceState
    rw [applyUpdates_find? i ps s row h]
    rfl
  · intro m p0 k hnd
    exact objGet_dictUpdate m p0 k hnd

theorem merge_law_witness :
    sysA.devices.find? (fun d => d.did == 0) =
      some ⟨0, "Lamp", "light", [("on", Val.bool false)]⟩ ∧
    deviceState (applyUpdates sysA 0 [[("on", Val.bool true)], [("hue", Val.num 2)]]) 0 =
      some [("on", Val.bool true), ("hue", Val.num 2)] ∧
    objGet (dictUpdate [("on", Val.bool false)] [("on", Val.bool true)]) "on" =
      (objGet [("on", Val.bool true)] "on").or (objGet [("on", Val.bool false)] "on") :=
  ⟨by decide,
    (merge_law sysA 0 ⟨0, "Lamp", "light", [("on", Val.bool false)]⟩
      [[("on", Val.bool true)], [("hue", Val.num 2)]] (by decide)).1,
    (merge_law sysA 0 ⟨0, "Lamp", "light", [("on", Val.bool false)]⟩
      [[("on", Val.bool true)], [("hue", Val.num 2)]] (by decide)).2
      [("on", Val.bool false)] [("on", Val.bool true)] "on" (by decide)⟩

/- ### The event listing order -/

theorem insertTsDesc_small (e : Event) (m : List Event)
    (h : ∀ x ∈ m, e.timestamp < x.timestamp) :
    insertTsDesc e m = m ++ [e] := by
  induction m with
  | nil => rfl
  | cons x t ih =>
    have hx := h x (by simp)
    simp only [insertTsDesc, if_pos (Nat.le_of_lt hx)]
    rw [ih (fun y hy => h y (by simp [hy]))]
    rfl

theorem sortTsDesc_chrono (l : List Event)
    (h : List.Pairwise (fun a b => a.timestamp < b.timestamp) l) :
    sortTsDesc l = l.reverse := by
  induction l with
  | nil => rfl
  | cons x t ih =>
    have hp := List.pairwise_cons.mp h
    have hfold : sortTsDesc (x :: t) = insertTsDesc x (sortTsDesc t) := rfl
    rw [hfold, ih hp.2, insertTsDesc_small x t.reverse
      (fun y hy => hp.1 y (List.mem_reverse.mp hy)), List.reverse_cons]

theorem get_events_chrono (s : Sys) (n : Nat)
    (h : List.Pairwise (fun a b => a.timestamp < b.timestamp) s.eventLog) :
    get_events s n = s.eventLog.reverse.take n := by
  unfold get_events
  rw [sortTsDesc_chrono s.eventLog h]

/-- C4: timestamps are assigned strictly monotonically at append time — the
chronology invariant is preserved by `log_event` and the appended event is
newer than every stored one — and `get_events` returns up to `n` events,
most recently appended first, in non-increasing timestamp order, with
`list(n1)` a prefix of `list(n2)` whenever `n1 ≤ n2`. -/
theorem eventlog_ordering (s : Sys) (lvl src : String) (p : Option Obj)
    (n n1 n2 : Nat) (h : LogChrono s) (h12 : n1 ≤ n2) :
    LogChrono (log_event s lvl src p).1 ∧
    (∀ e ∈ s.eventLog, e.timestamp < (log_event s lvl src p).2.timestamp) ∧
    get_events s n = s.eventLog.reverse.take n ∧
    (get_events s n).length ≤ n ∧
    List.Pairwise (fun a b => b.timestamp ≤ a.timestamp) (get_events s n) ∧
    get_events s n1 <+: get_events s n2 := by
  obtain ⟨hpw, hclk⟩ := h
  refine ⟨⟨?_, ?_⟩, ?_, ?_, ?_, ?_, ?_⟩
  · rw [log_event_eventLog, List.pairwise_append]
    refine ⟨hpw, List.pairwise_singleton _ _, ?_⟩
    intro a ha b hb
    rw [List.mem_singleton] at hb
    subst hb
    exact hclk a ha
  · intro e he
    rw [log_event_eventLog] at he
    rw [log_event_clock]
    rcases List.mem_append.mp he with h1 | h1
    · exact Nat.lt_succ_of_lt (hclk e h1)
    · rw [List.mem_singleton] at h1
      subst h1
      exact Nat.lt_succ_self _
  · intro e he
    rw [log_event_frame]
    exact hclk e he
  · exact get_events_chrono s n hpw
  · rw [get_events_chrono s n hpw, List.length_take]
    exact min_le_left _ _
  · rw [get_events_chrono s n hpw]
    have hrev : List.Pairwise (fun a b => b.timestamp < a.timestamp) s.eventLog.reverse :=
      List.pairwise_reverse.mpr hpw
    exact (hrev.sublist (List.take_sublist n _)).imp (fun hab => Nat.le_of_lt hab)
  · rw [get_events_chrono s n1 hpw, get_events_chrono s n2 hpw]
    have h1 : s.eventLog.reverse.take n1 = (s.eventLog.reverse.take n2).take n1 := by
      rw [List.take_take, min_eq_left h12]
    rw [h1]
    exact List.take_prefix n1 _

/-- A concrete state with two chronologically stamped events. -/
def sysB : Sys :=
  { devices := []
    sensors := []
    eventLog := [⟨0, 0, "info", "a", none⟩, ⟨1, 1, "warn", "b", none⟩]
    conns := []
    active := []
    nextUuid := 2
    clock := 2 }

theorem eventlog_ordering_witness :
    (1 : Nat) ≤ 2 ∧
    get_events sysB 1 = [⟨1, 1, "warn", "b", none⟩] ∧
    get_events sysB 1 <+: get_events sysB 2 := by
  have h := eventlog_ordering sysB "info" "x" none 1 1 2 ⟨by decide, by decide⟩ (by decide)
  refine ⟨by decide, ?_, h.2.2.2.2.2⟩
  rw [h.2.2.1]
  rfl

/-- C5: both mutating endpoints run their three steps in strict sequence —
the result is literally the broadcast applied to the state that already
holds the mutated table and the appended event.  The mutated table, the
appended event and the caller's response are fixed by the pre-state alone,
for every connection world including failing observers, so a broadcast
failure can neither roll them back nor reach the caller. -/
theorem coordinator_sequence (s : Sys) (i j : Nat) (p : Obj) (bv : Option Val)
    (row : Device) (h : s.devices.find? (fun d => d.did == i) = some row) :
    ((update_device s i p).1 =
      broadcastSys
        { s with
          devices := s.devices.map
            (fun d => if d.did == i then { d with state := dictUpdate row.state p } else d),
          eventLog := s.eventLog ++ [⟨s.nextUuid, s.clock, "info",
            "Device Update: " ++ row.name, storedPayload (some (dictUpdate row.state p))⟩],
          nextUuid := s.nextUuid + 1,
          clock := s.clock + 1 }
        ⟨"event", s.nextUuid, s.clock, "info", "Device Update: " ++ row.name,
          some (dictUpdate row.state p)⟩) ∧
    (update_device s i p).1.devices = s.devices.map
      (fun d => if d.did == i then { d with state := dictUpdate row.state p } else d) ∧
    (update_device s i p).1.eventLog = s.eventLog ++ [⟨s.nextUuid, s.clock, "info",
      "Device Update: " ++ row.name, storedPayload (some (dictUpdate row.state p))⟩] ∧
    (update_device s i p).2 = Except.ok okResp ∧
    ((trigger_sensor s j bv).1 =
      broadcastSys
        { s with
          sensors := s.sensors.map
            (fun sn => if sn.sid == j then { sn with is_triggered := triggerVal bv } else sn),
          eventLog := s.eventLog ++ [⟨s.nextUuid, s.clock,
            (if triggerVal bv then "warn" else "info"), "Sensor Update",
            some [("sensor_id", Val.num (Int.ofNat j)), ("triggered", Val.bool (triggerVal bv))]⟩],
          nextUuid := s.nextUuid + 1,
          clock := s.clock + 1 }
        ⟨"event", s.nextUuid, s.clock, (if triggerVal bv then "warn" else "info"),
          "Sensor Update", some [("sensor_id", Val.num (Int.ofNat j)),
            ("triggered", Val.bool (triggerVal bv))]⟩) ∧
    (trigger_sensor s j bv).2 = okResp := by
  refine ⟨?_, ?_, ?_, ?_, ?_, rfl⟩
  · simp only [update_device, h]
    rfl
  · simp only [update_device, h]
    rw [log_event_devices]
  · simp only [update_device, h]
    rw [log_event_eventLog]
  · simp [update_device, h]
  · simp only [trigger_sensor]
    rfl

/-- One failing and one healthy observer over the usual fixture. -/
def sysC : Sys :=
  { devices := [⟨0, "Lamp", "light", [("on", Val.bool false)]⟩]
    sensors := [⟨1, "Front Door", "door", false, 1⟩]
    eventLog := []
    conns := [⟨7, true, []⟩, ⟨8, false, []⟩]
    active := [7, 8]
    nextUuid := 2
    clock := 0 }

theorem coordinator_sequence_witness :
    sysC.devices.find? (fun d => d.did == 0) =
      some ⟨0, "Lamp", "light", [("on", Val.bool false)]⟩ ∧
    (update_device sysC 0 [("on", Val.bool true)]).1.eventLog =
      [⟨2, 0, "info", "Device Update: Lamp", some [("on", Val.bool true)]⟩] ∧
    (update_device sysC 0 [("on", Val.bool true)]).2 = Except.ok okResp := by
  have h := coordinator_sequence sysC 0 1 [("on", Val.bool true)] none
    ⟨0, "Lamp", "light", [("on", Val.bool false)]⟩ (by decide)
  refine ⟨by decide, ?_, h.2.2.2.1⟩
  rw [h.2.2.1]
  rfl

/-- C3 (amended): every successful `update_device` or `trigger_sensor`
appends exactly one event.  A trigger with value true logs level warn, with
value false level info; a device update logs level info with a source naming
the device and a payload equal to the merged state whenever that state is
non-empty — an empty merged state is stored with payload `none`. -/
theorem event_per_mutation (s : Sys) (i j : Nat) (p : Obj) (bv : Option Val)
    (row : Device) (h : s.devices.find? (fun d => d.did == i) = some row) :
    (update_device s i p).1.eventLog =
      s.eventLog ++ [⟨s.nextUuid, s.clock, "info", "Device Update: " ++ row.name,
        storedPayload (some (dictUpdate row.state p))⟩] ∧
    (payloadTruthy (some (dictUpdate row.state p)) = true →
      storedPayload (some (dictUpdate row.state p)) = some (dictUpdate row.state p)) ∧
    (trigger_sensor s j bv).1.eventLog =
      s.eventLog ++ [⟨s.nextUuid, s.clock, (if triggerVal bv then "warn" else "info"),
        "Sensor Update", some [("sensor_id", Val.num (Int.ofNat j)),
          ("triggered", Val.bool (triggerVal bv))]⟩] := by
  refine ⟨?_, ?_, ?_⟩
  · simp only [update_device, h]
    rw [log_event_eventLog]
  · intro hp
    simp [storedPayload, hp]
  · simp only [trigger_sensor]
    rw [log_event_eventLog]
    rfl

theorem event_per_mutation_witness :
    sysA.devices.find? (fun d => d.did == 0) =
      some ⟨0, "Lamp", "light", [("on", Val.bool false)]⟩ ∧
    (update_device sysA 0 [("on", Val.bool true)]).1.eventLog =
      [⟨2, 0, "info", "Device Update: Lamp", some [("on", Val.bool true)]⟩] ∧
    (trigger_sensor sysA 1 (some (Val.bool false))).1.eventLog =
      [⟨2, 0, "info", "Sensor Update",
        some [("sensor_id", Val.num 1), ("triggered", Val.bool false)]⟩] := by
  have h := event_per_mutation sysA 0 1 [("on", Val.bool true)] (some (Val.bool false))
    ⟨0, "Lamp", "light", [("on", Val.bool false)]⟩ (by decide)
  refine ⟨by decide, ?_, ?_⟩
  · rw [h.1]
    rfl
  · rw [h.2.2]
    rfl

/-- A device whose state is the empty mapping. -/
def sysD : Sys :=
  { devices := [⟨0, "Hub", "other", []⟩]
    sensors := []
    eventLog := []
    conns := []
    active := []
    nextUuid := 1
    clock := 0 }

/-- C3 counterexample: a successful device update whose merged state is the
empty mapping appends exactly one event, but that event's payload is `none`,
not the merged state. -/
theorem event_payload_empty_state :
    (update_device sysD 0 []).2 = Except.ok okResp ∧
    deviceState (update_device sysD 0 []).1 0 = some [] ∧
    ((update_device sysD 0 []).1.eventLog.map (fun e => e.payload)) = [none] ∧
    (none : Option Obj) ≠ some [] :=
  ⟨rfl, rfl, rfl, by decide⟩

/- ### The broadcast loop under send failures -/

theorem connFailing_cons (a : Conn) (t : List Conn) (x : Nat) :
    connFailing (a :: t) x = if (a.cid == x) = true then a.failing else connFailing t x := by
  by_cases h : (a.cid == x) = true
  · simp [connFailing, List.find?_cons, h]
  · simp [connFailing, List.find?_cons, h]

theorem inboxOf_cons (a : Conn) (t : List Conn) (x : Nat) :
    inboxOf (a :: t) x = if (a.cid == x) = true then a.inbox else inboxOf t x := by
  by_cases h : (a.cid == x) = true
  · simp [inboxOf, List.find?_cons, h]
  · simp [inboxOf, List.find?_cons, h]

theorem deliver_cons (a : Conn) (t : List Conn) (c : Nat) (f : Frame) :
    deliver (a :: t) c f =
      (if (a.cid == c) = true then { a with inbox := a.inbox ++ [f] } else a) :: deliver t c f := by
  simp [deliver]

theorem connFailing_deliver (cs : List Conn) (c : Nat) (f : Frame) (x : Nat) :
    connFailing (deliver cs c f) x = connFailing cs x := by
  induction cs with
  | nil => rfl
  | cons a t ih =>
    rw [deliver_cons]
    by_cases hac : (a.cid == c) = true <;> by_cases hax : (a.cid == x) = true <;>
      simp [hac, hax, connFailing_cons, ih]

theorem any_cid_deliver (cs : List Conn) (c : Nat) (f : Frame) (x : Nat) :
    (deliver cs c f).any (fun y => y.cid == x) = cs.any (fun y => y.cid == x) := by
  induction cs with
  | nil => rfl
  | cons a t ih =>
    rw [deliver_cons]
    by_cases hac : (a.cid == c) = true <;> by_cases hax : (a.cid == x) = true <;>
      simp [hac, hax, List.any_cons, ih]

theorem inboxOf_deliver_self (cs : List Conn) (c : Nat) (f : Frame)
    (hmem : cs.any (fun x => x.cid == c) = true) :
    inboxOf (deliver cs c f) c = inboxOf cs c ++ [f] := by
  induction cs with
  | nil => simp at hmem
  | cons a t ih =>
    rw [deliver_cons]
    by_cases hac : (a.cid == c) = true
    · simp [hac, inboxOf_cons]
    · rw [List.any_cons] at hmem
      simp only [hac, Bool.false_or] at hmem
      simp [hac, inboxOf_cons, ih hmem]

theorem inboxOf_deliver_ne (cs : List Conn) (c x : Nat) (f : Frame) (hne : c ≠ x) :
    inboxOf (deliver cs c f) x = inboxOf cs x := by
  induction cs with
  | nil => rfl
  | cons a t ih =>
    rw [deliver_cons]
    by_cases hac : (a.cid == c) = true
    · have hax : (a.cid == x) = false := by
        rw [beq_eq_false_iff_ne]
        intro haxeq
        exact hne (by rw [← beq_iff_eq.mp hac, haxeq])
      simp [hac, hax, inboxOf_cons, ih]
    · simp [hac, inboxOf_cons, ih]

theorem broadcastStep_connFailing (f : Frame) (st : Sys) (c x : Nat) :
    connFailing (broadcastStep f st c).conns x = connFailing st.conns x := by
  unfold broadcastStep
  split
  · rfl
  · exact connFailing_deliver st.conns c f x

theorem broadcastStep_any_cid (f : Frame) (st : Sys) (c x : Nat) :
    (broadcastStep f st c).conns.any (fun y => y.cid == x) =
      st.conns.any (fun y => y.cid == x) := by
  unfold broadcastStep
  split
  · rfl
  · exact any_cid_deliver st.conns c f x

theorem foldl_broadcastStep_connFailing (f : Frame) (l : List Nat) (st : Sys) (x : Nat) :
    connFailing (l.foldl (broadcastStep f) st).conns x = connFailing st.conns x := by
  induction l generalizing st with
  | nil => rfl
  | cons c rest ih => rw [List.foldl_cons, ih, broadcastStep_connFailing]

theorem foldl_broadcastStep_any_cid (f : Frame) (l : List Nat) (st : Sys) (x : Nat) :
    (l.foldl (broadcastStep f) st).conns.any (fun y => y.cid == x) =
      st.conns.any (fun y => y.cid == x) := by
  induction l generalizing st with
  | nil => rfl
  | cons c rest ih => rw [List.foldl_cons, ih, broadcastStep_any_cid]

theorem broadcastStep_inbox_ne (f : Frame) (st : Sys) (c x : Nat) (hne : c ≠ x) :
    inboxOf (broadcastStep f st c).conns x = inboxOf st.conns x := by
  unfold broadcastStep
  split
  · rfl
  · exact inboxOf_deliver_ne st.conns c x f hne

theorem foldl_broadcastStep_inbox_not_mem (f : Frame) (l : List Nat) (st : Sys) (x : Nat)
    (hx : x ∉ l) :
    inboxOf (l.foldl (broadcastStep f) st).conns x = inboxOf st.conns x := by
  induction l generalizing st with
  | nil => rfl
  | cons c rest ih =>
    rw [List.foldl_cons]
    have hcx : c ≠ x := fun hcx => hx (by rw [← hcx]; exact List.mem_cons_self c rest)
    rw [ih (broadcastStep f st c) (fun hmem => hx (List.mem_cons_of_mem c hmem))]
    unfold broadcastStep
    split
    · rfl
    · exact inboxOf_deliver_ne st.conns c x f hcx

theorem foldl_broadcastStep_inbox_mem (f : Frame) (l : List Nat) (st : Sys) (x : Nat)
    (hx : x ∈ l) (hnd : l.Nodup)
    (hfail : connFailing st.conns x = false)
    (hpres : st.conns.any (fun y => y.cid == x) = true) :
    inboxOf (l.foldl (broadcastStep f) st).conns x = inboxOf st.conns x ++ [f] := by
  induction l generalizing st with
  | nil => simp at hx
  | cons c rest ih =>
    rw [List.foldl_cons]
    rcases List.mem_cons.mp hx with hcx | hmem
    · subst hcx
      have hstep : broadcastStep f st x = { st with conns := deliver st.conns x f } := by
        unfold broadcastStep
        rw [hfail]
        simp
      rw [hstep]
      have hxrest : x ∉ rest := (List.nodup_cons.mp hnd).1
      rw [foldl_broadcastStep_inbox_not_mem f rest _ x hxrest]
      exact inboxOf_deliver_self st.conns x f hpres
    · have hcx : c ≠ x := fun h => (List.nodup_cons.mp hnd).1 (h ▸ hmem)
      rw [← broadcastStep_inbox_ne f st c x hcx]
      apply ih (broadcastStep f st c) hmem (List.nodup_cons.mp hnd).2
      · rw [broadcastStep_connFailing]
        exact hfail
      · rw [broadcastStep_any_cid]
        exact hpres

theorem foldl_broadcastStep_active_none_fail (f : Frame) (l : List Nat) (st : Sys)
    (h : ∀ c ∈ l, connFailing st.conns c = false) :
    (l.foldl (broadcastStep f) st).active = st.active := by
  induction l generalizing st with
  | nil => rfl
  | cons c rest ih =>
    rw [List.foldl_cons]
    have hstep : broadcastStep f st c = { st with conns := deliver st.conns c f } := by
      unfold broadcastStep
      rw [h c (List.mem_cons_self c rest)]
      simp
    have hrest : ∀ d ∈ rest, connFailing (broadcastStep f st c).conns d = false := by
      intro d hd
      rw [broadcastStep_connFailing]
      exact h d (List.mem_cons_of_mem c hd)
    rw [ih (broadcastStep f st c) hrest, hstep]

theorem foldl_broadcastStep_active_one_fail (f : Frame) (l : List Nat) (st : Sys) (a : Nat)
    (ha : a ∈ l) (hnd : l.Nodup)
    (hfa : connFailing st.conns a = true)
    (hothers : ∀ b ∈ l, b ≠ a → connFailing st.conns b = false) :
    (l.foldl (broadcastStep f) st).active = disconnectList st.active a := by
  induction l generalizing st with
  | nil => simp at ha
  | cons c rest ih =>
    rw [List.foldl_cons]
    rcases List.mem_cons.mp ha with hca | hmem
    · subst hca
      have hstep : broadcastStep f st a = { st with active := disconnectList st.active a } := by
        unfold broadcastStep
        rw [hfa]
        simp
      rw [hstep]
      have hrest : ∀ d ∈ rest,
          connFailing ({ st with active := disconnectList st.active a }).conns d = false := by
        intro d hd
        have hda : d ≠ a := fun hdeq => (List.nodup_cons.mp hnd).1 (hdeq ▸ hd)
        exact hothers d (List.mem_cons_of_mem a hd) hda
      rw [foldl_broadcastStep_active_none_fail f rest _ hrest]
    · have hca : c ≠ a := fun h => (List.nodup_cons.mp hnd).1 (h ▸ hmem)
      have hstep : broadcastStep f st c = { st with conns := deliver st.conns c f } := by
        unfold broadcastStep
        rw [hothers c (List.mem_cons_self c rest) hca]
        simp
      have h1 := ih (broadcastStep f st c) hmem (List.nodup_cons.mp hnd).2
        (by rw [broadcastStep_connFailing]; exact hfa)
        (fun b hb hba => by
          rw [broadcastStep_connFailing]
          exact hothers b (List.mem_cons_of_mem c hb) hba)
      rw [h1, hstep]

/-- C7: when exactly one registered observer fails its send, `broadcast`
removes only that observer from the registry; every other registered observer
receives exactly one copy of the frame, a subsequent broadcast still reaches
all the survivors, and an explicit disconnect of the evicted observer
afterwards is a no-op that raises nothing. -/
theorem eviction_safety (s : Sys) (f f2 : Frame) (a : Nat)
    (hnd : s.active.Nodup)
    (ha : a ∈ s.active)
    (hfa : connFailing s.conns a = true)
    (hothers : ∀ b ∈ s.active, b ≠ a → connFailing s.conns b = false)
    (hpres : ∀ b ∈ s.active, s.conns.any (fun y => y.cid == b) = true) :
    (broadcastSys s f).active = s.active.erase a ∧
    (∀ b ∈ s.active, b ≠ a →
      inboxOf (broadcastSys s f).conns b = inboxOf s.conns b ++ [f]) ∧
    (∀ b ∈ (broadcastSys s f).active,
      inboxOf (broadcastSys (broadcastSys s f) f2).conns b =
        inboxOf (broadcastSys s f).conns b ++ [f2]) ∧
    disconnectSys (broadcastSys s f) a = broadcastSys s f := by
  have hactive : (broadcastSys s f).active = s.active.erase a := by
    unfold broadcastSys
    rw [foldl_broadcastStep_active_one_fail f s.active s a ha hnd hfa hothers]
    unfold disconnectList
    rw [if_pos (List.elem_eq_true_of_mem ha)]
  refine ⟨hactive, ?_, ?_, ?_⟩
  · intro b hb hba
    exact foldl_broadcastStep_inbox_mem f s.active s b hb hnd (hothers b hb hba) (hpres b hb)
  · intro b hb
    rw [hactive] at hb
    have hb' : b ≠ a ∧ b ∈ s.active := (List.Nodup.mem_erase_iff hnd).mp hb
    have hnd' : (broadcastSys s f).active.Nodup := by
      rw [hactive]
      exact hnd.erase a
    have hfail' : connFailing (broadcastSys s f).conns b = false := by
      unfold broadcastSys
      rw [foldl_broadcastStep_connFailing]
      exact hothers b hb'.2 hb'.1
    have hpres' : (broadcastSys s f).conns.any (fun y => y.cid == b) = true := by
      unfold broadcastSys
      rw [foldl_broadcastStep_any_cid]
      exact hpres b hb'.2
    have hb2 : b ∈ (broadcastSys s f).active := by
      rw [hactive]
      exact hb
    exact foldl_broadcastStep_inbox_mem f2 (broadcastSys s f).active (broadcastSys s f)
      b hb2 hnd' hfail' hpres'
  · have hnotmem : a ∉ (broadcastSys s f).active := by
      rw [hactive]
      intro hmem
      exact ((List.Nodup.mem_erase_iff hnd).mp hmem).1 rfl
    have hcont : ((broadcastSys s f).active.contains a) = false := by
      rw [Bool.eq_false_iff]
      intro hc
      exact hnotmem (List.mem_of_elem_eq_true hc)
    unfold disconnectSys disconnectList
    rw [hcont]
    simp

/-- Three observers, the middle one failing. -/
def sysE : Sys :=
  { devices := []
    sensors := []
    eventLog := []
    conns := [⟨1, false, []⟩, ⟨2, true, []⟩, ⟨3, false, []⟩]
    active := [1, 2, 3]
    nextUuid := 0
    clock := 0 }

def frA : Frame := ⟨"event", 0, 0, "info", "x", none⟩

def frB : Frame := ⟨"event", 1, 1, "warn", "y", none⟩

theorem eviction_safety_witness :
    (broadcastSys sysE frA).active = [1, 3] ∧
    inboxOf (broadcastSys sysE frA).conns 1 = [frA] ∧
    inboxOf (broadcastSys (broadcastSys sysE frA) frB).conns 3 = [frA, frB] ∧
    disconnectSys (broadcastSys sysE frA) 2 = broadcastSys sysE frA := by
  have h := eviction_safety sysE frA frB 2 (by decide) (by decide) (by decide)
    (by decide) (by decide)
  have hb3 : 3 ∈ (broadcastSys sysE frA).active := by
    rw [h.1]
    decide
  refine ⟨?_, ?_, ?_, h.2.2.2⟩
  · rw [h.1]
    rfl
  · rw [h.2.1 1 (by decide) (by decide)]
    rfl
  · rw [h.2.2.1 3 hb3]
    rfl
